import Mathlib

/-!
Verification of the order/payment reconciliation core of the storefront
backend in src/server.js.  The JavaScript handlers are embedded shallowly:
every money amount (Postgres NUMERIC, JavaScript number) is modelled as an
exact rational, timestamps as integers (milliseconds since the epoch), and
each HTTP handler or background task as a pure function from a database
state to a database state together with a result.  JavaScript toFixed(n)
followed by parseFloat is modelled as exact decimal rounding, half away
from zero; all concrete inputs used below stay clear of half-way points so
that the results do not depend on the tie-breaking rule.
-/

/-- Decimal rounding to a given number of fractional digits, half up.
Models the toFixed / parseFloat round trips of the source, all of which
are applied to nonnegative amounts. -/
def roundTo (digits : ℕ) (x : ℚ) : ℚ :=
  (⌊x * (10 : ℚ) ^ digits + 1/2⌋ : ℚ) / (10 : ℚ) ^ digits

/-- toFixed(4), as used for settlement-unit amounts. -/
def round4 (x : ℚ) : ℚ := roundTo 4 x

/-- toFixed(2), as used for fiat amounts and fee amounts. -/
def round2 (x : ℚ) : ℚ := roundTo 2 x

/-- The amount x is a whole multiple of 1/10000, i.e. has at most four
fractional decimal digits. -/
def isMul4 (x : ℚ) : Prop := (⌊x * 10000⌋ : ℚ) / 10000 = x

/-!
## Data model

Rows of the Postgres tables created by initDB in src/server.js.  Columns
that none of the verified operations read or write (images, tracking
numbers, QR codes, notification flags, chat data) are omitted.
-/

/-- A row of the users table: id SERIAL PRIMARY KEY, contact TEXT,
balance NUMERIC DEFAULT 0 (modelled with the COALESCE(balance,0) reading
already applied, so the column is a plain rational). -/
structure User where
  id : ℕ
  contact : String
  balance : ℚ
  deriving DecidableEq

/-- A row of the products table. -/
structure Product where
  id : ℕ
  name : String
  price : ℚ
  stock : ℤ
  deriving DecidableEq

/-- A row of the orders table. -/
structure Order where
  id : ℕ
  order_id : String
  product_name : String
  contact : String
  payment_method : String
  status : String
  user_id : ℕ
  usdt_amount : ℚ
  cny_amount : ℚ
  snapshot_rate : ℚ
  shipping_info : String
  expires_at : ℤ
  created_at : ℤ
  fee_amount : ℚ
  quantity : ℕ
  deriving DecidableEq

/-- A row of the withdraw_orders table. -/
structure WithdrawOrder where
  order_id : String
  user_id : ℕ
  amount : ℚ
  fee : ℚ
  actual_amount : ℚ
  payment_method : String
  deriving DecidableEq

/-- The ledger entry of the specification (section 3): account reference,
signed amount, memo tag, and resulting balance snapshot.  The database
schema in src/server.js defines no such table; this type and the ledger
field of DB exist so that the specification claims about ledger pairing
can be stated against the code.  No operation of the source ever appends
one. -/
structure LedgerEntry where
  account : ℕ
  amount : ℚ
  tag : String
  resulting : ℚ
  deriving DecidableEq

/-- An external payment-evidence record returned by the explorer API:
value is the raw integer token amount (the transferred amount is
value / 10^6) and block_timestamp is in milliseconds. -/
structure Tx where
  value : ℤ
  block_timestamp : ℤ
  deriving DecidableEq

/-- The database state: one list per table, in row order. -/
structure DB where
  users : List User
  products : List Product
  orders : List Order
  withdraw_orders : List WithdrawOrder
  ledger : List LedgerEntry
  deriving DecidableEq

/-- Order status strings used by the source. -/
def statusPending : String := "待支付"

def statusPaid : String := "已支付"

def statusCancelled : String := "已取消"

/-!
## Database helpers

SQL SELECT by key is List.find? (first matching row); SQL UPDATE by key
maps the update over every matching row (keys are unique in the schema,
but the embedding does not assume it except where a theorem states so).
-/

/-- SELECT * FROM users WHERE id = uid (first row). -/
def findUser (db : DB) (uid : ℕ) : Option User :=
  db.users.find? (fun u => u.id == uid)

/-- The balance read used by the handlers: user.rows[0]?.balance || 0. -/
def userBalance (db : DB) (uid : ℕ) : ℚ :=
  match findUser db uid with
  | some u => u.balance
  | none => 0

/-- UPDATE users SET balance = f(balance) WHERE id = uid. -/
def updateUserBalance (db : DB) (uid : ℕ) (f : ℚ → ℚ) : DB :=
  { db with
    users := db.users.map (fun u =>
      if u.id = uid then { u with balance := f u.balance } else u) }

/-- SELECT * FROM products WHERE id = pid (first row). -/
def findProduct (db : DB) (pid : ℕ) : Option Product :=
  db.products.find? (fun p => p.id == pid)

/-- SELECT * FROM orders WHERE id = i (first row; id is the serial key). -/
def orderById (db : DB) (i : ℕ) : Option Order :=
  db.orders.find? (fun o => o.id == i)

/-- SELECT * FROM orders WHERE order_id = oid (first row). -/
def orderByOrderId (db : DB) (oid : String) : Option Order :=
  db.orders.find? (fun o => o.order_id == oid)

/-- UPDATE orders SET status = st WHERE id = i. -/
def setOrderStatusById (db : DB) (i : ℕ) (st : String) : DB :=
  { db with
    orders := db.orders.map (fun o =>
      if o.id = i then { o with status := st } else o) }

/-- UPDATE orders SET status = st WHERE order_id = oid. -/
def setOrderStatusByOrderId (db : DB) (oid : String) (st : String) : DB :=
  { db with
    orders := db.orders.map (fun o =>
      if o.order_id = oid then { o with status := st } else o) }

/-!
## Payment Reconciler (checkUsdtDeposits, src/server.js lines 220-256)

The cycle is modelled on its successful-fetch path: the pending set is
selected once up front, the evidence list txs is the fetched transfer
list, and the loop body runs for each selected order in row order.  A
failed fetch leaves the state unchanged (the whole cycle is inside one
try/catch), so the claims below quantify over the successful path.
-/

/-- parseFloat(tx.value) / 1000000. -/
def txAmount (tx : Tx) : ℚ := (tx.value : ℚ) / 1000000

/-- The match predicate of the evidence search:
Math.abs(txAmount - expectedAmount) < 0.000001 && txTime >= orderTime. -/
def txMatches (o : Order) (tx : Tx) : Bool :=
  decide (|txAmount tx - o.usdt_amount| < 1/1000000) &&
  decide (o.created_at ≤ tx.block_timestamp)

/-- txs.find(tx => ...): the first matching transfer, if any. -/
def findMatch (o : Order) (txs : List Tx) : Option Tx :=
  txs.find? (txMatches o)

/-- SELECT * FROM orders WHERE status = '待支付' AND payment_method =
'USDT' AND expires_at > NOW(). -/
def pendingSelect (db : DB) (now : ℤ) : List Order :=
  db.orders.filter (fun o =>
    o.status == statusPending && o.payment_method == "USDT" &&
    decide (now < o.expires_at))

/-- The body of the for-loop of checkUsdtDeposits for one pending order:
on a match, set the order paid, then credit any overpayment beyond the
amount actually owed (usdt_amount - fee_amount) to the buyer, rounded by
toFixed(4). -/
def processOrder (db : DB) (txs : List Tx) (o : Order) : DB :=
  match findMatch o txs with
  | none => db
  | some tx =>
      let db1 := setOrderStatusById db o.id statusPaid
      let exactPrice := o.usdt_amount - o.fee_amount
      let overpaid := txAmount tx - exactPrice
      if overpaid > 1/1000000 then
        updateUserBalance db1 o.user_id (fun b => b + round4 overpaid)
      else db1

/-- One reconciliation cycle at time now against evidence list txs. -/
def checkUsdtDeposits (db : DB) (now : ℤ) (txs : List Tx) : DB :=
  (pendingSelect db now).foldl (fun d o => processOrder d txs o) db

/-!
## Pricing (POST /api/order, src/server.js lines 624-636)
-/

/-- The disambiguation fraction added to settlement-unit orders:
(Math.floor(Math.random() * 9000) + 1000) / 10000, with the random draw
Math.floor(Math.random() * 9000) passed in as draw (an integer in
[0, 8999]). -/
def nonceOf (draw : ℕ) : ℚ := ((1000 + draw : ℕ) : ℚ) / 10000

/-- The pricing computation of the order handler, returning
(usdtAmount, cnyAmount, feeAmount) before any balance deduction.
For a non-settlement rail the fee is basePrice * rate * feePercent / 100
and is added to the fiat amount; for the settlement rail the nonce is
added to the base and the sum is passed through toFixed(4), no fee is
charged, and the fiat amount is computed from the un-noised base. -/
def priceOrder (basePrice rate feePercent : ℚ) (paymentMethod : String)
    (draw : ℕ) : ℚ × ℚ × ℚ :=
  if paymentMethod = "USDT" then
    (round4 (basePrice + nonceOf draw), basePrice * rate, 0)
  else
    let fee := basePrice * rate * (feePercent / 100)
    (basePrice, basePrice * rate + fee, fee)

/-!
## Order creation (POST /api/order, src/server.js lines 609-686)
-/

/-- Request body of POST /api/order: userId, productId, paymentMethod,
quantity (default 1), useBalance (default 0, already through
parseFloat). -/
structure CreateParams where
  userId : ℕ
  productId : ℕ
  paymentMethod : String
  shippingInfo : String
  quantity : ℕ
  useBalance : ℚ

/-- Per-request environment of the order handler: the current time, the
random nonce draw (an integer in [0, 8999]), the generated order id and
serial row id, the exchange rate and fee percent read from settings, and
whether the final INSERT INTO orders fails (the only statement of the
handler after the balance deduction, so the one whose failure can leave
a partial effect). -/
structure CreateEnv where
  nowMs : ℤ
  draw : ℕ
  orderId : String
  rowId : ℕ
  rate : ℚ
  feePercent : ℚ
  insertFails : Bool

/-- Results of POST /api/order. -/
inductive CreateResult where
  | created (orderId : String)
  | productNotFound
  | insufficientBalance
  | balanceTooHigh
  | insertError
  deriving DecidableEq

/-- The order row inserted by the handler. -/
def newOrderRow (p : CreateParams) (env : CreateEnv) (prodName : String)
    (usdtAmount cnyAmount feeAmount : ℚ) : Order :=
  { id := env.rowId
    order_id := env.orderId
    product_name := prodName
    contact := "RegUser"
    payment_method := p.paymentMethod
    status := statusPending
    user_id := p.userId
    usdt_amount := usdtAmount
    cny_amount := round2 cnyAmount
    snapshot_rate := env.rate
    shipping_info := p.shippingInfo
    expires_at := env.nowMs + 30 * 60 * 1000
    created_at := env.nowMs
    fee_amount := round2 feeAmount
    quantity := p.quantity }

/-- POST /api/order.  Faithful step order: product lookup, pricing, then
for a settlement-unit order with useBalance > 0 the balance checks and
the balance deduction (a committed UPDATE), and only then the INSERT of
the order row.  There is no transaction and no stock update anywhere in
the handler. -/
def createOrder (db : DB) (p : CreateParams) (env : CreateEnv) :
    DB × CreateResult :=
  match findProduct db p.productId with
  | none => (db, .productNotFound)
  | some prod =>
      let basePrice := prod.price * (p.quantity : ℚ)
      let priced := priceOrder basePrice env.rate env.feePercent
        p.paymentMethod env.draw
      let usdtAmount := priced.1
      let cnyAmount := priced.2.1
      let feeAmount := priced.2.2
      if p.paymentMethod = "USDT" ∧ p.useBalance > 0 then
        let bal := userBalance db p.userId
        if p.useBalance > bal then (db, .insufficientBalance)
        else if p.useBalance ≥ usdtAmount then (db, .balanceTooHigh)
        else
          let db1 := updateUserBalance db p.userId (fun b => b - p.useBalance)
          let usdtFinal := round4 (usdtAmount - p.useBalance)
          if env.insertFails then (db1, .insertError)
          else
            ({ db1 with orders := db1.orders ++
                [newOrderRow p env prod.name usdtFinal cnyAmount feeAmount] },
              .created env.orderId)
      else
        if env.insertFails then (db, .insertError)
        else
          ({ db with orders := db.orders ++
              [newOrderRow p env prod.name usdtAmount cnyAmount feeAmount] },
            .created env.orderId)

/-!
## Buyer, operator and cancellation handlers
-/

/-- POST /api/order/cancel (src/server.js lines 935-948): only an order
of the requesting user in status pending may be cancelled; the update
touches nothing but the status column. -/
inductive CancelResult where
  | ok
  | notFound
  | notCancellable
  deriving DecidableEq

def cancelOrder (db : DB) (oid : String) (uid : ℕ) : DB × CancelResult :=
  match db.orders.find? (fun o => o.order_id == oid && o.user_id == uid) with
  | none => (db, .notFound)
  | some o =>
      if o.status ≠ statusPending then (db, .notCancellable)
      else (setOrderStatusByOrderId db oid statusCancelled, .ok)

/-- POST /api/order/confirm_payment (src/server.js lines 838-865): the
buyer self-attestation handler.  It selects the order by order_id,
user_id and status pending, and if found sets the status to paid.  The
Bool result is the success flag of the JSON response. -/
def confirmPayment (db : DB) (oid : String) (uid : ℕ) : DB × Bool :=
  match db.orders.find? (fun o =>
      o.order_id == oid && o.user_id == uid && o.status == statusPending) with
  | none => (db, false)
  | some _ => (setOrderStatusByOrderId db oid statusPaid, true)

/-- POST /api/admin/confirm_pay (src/server.js lines 1096-1105): the
operator confirmation.  The handler is a single unguarded UPDATE. -/
def adminConfirmPay (db : DB) (oid : String) : DB :=
  setOrderStatusByOrderId db oid statusPaid

/-!
## Withdrawal (POST /api/user/withdraw, src/server.js lines 546-606)
-/

inductive WithdrawResult where
  | ok
  | userNotFound
  | belowMinimum
  | insufficient
  deriving DecidableEq

/-- The 1 percent fee the withdrawal handler charges on the cash rails. -/
def withdrawFee (amount : ℚ) (method : String) : ℚ :=
  if method = "微信" ∨ method = "支付宝" then amount * (1/100) else 0

/-- The withdraw_orders row inserted by the handler. -/
def newWithdrawRow (uid : ℕ) (amount : ℚ) (method oid : String) :
    WithdrawOrder :=
  { order_id := oid, user_id := uid, amount := amount,
    fee := withdrawFee amount method,
    actual_amount := amount - withdrawFee amount method,
    payment_method := method }

/-- POST /api/user/withdraw: minimum 10 units, sufficient balance, a 1%
fee on the cash rails, an inserted withdraw_orders row, and the balance
reservation UPDATE users SET balance = balance - amount. -/
def withdraw (db : DB) (uid : ℕ) (amount : ℚ) (method : String)
    (oid : String) : DB × WithdrawResult :=
  match findUser db uid with
  | none => (db, .userNotFound)
  | some u =>
      if amount < 10 then (db, .belowMinimum)
      else if u.balance < amount then (db, .insufficient)
      else
        (updateUserBalance
          { db with withdraw_orders := db.withdraw_orders ++
              [newWithdrawRow uid amount method oid] }
          uid (fun b => b - amount), .ok)

/-!
## The specification claims, stated

Each definition below restates one claim of the specification in the
terms of the embedding, to be proved or refuted.  They follow the
specification text; the operations they mention are the source-derived
functions above.
-/

/-- Whether an order-creation result is a success. -/
def CreateResult.isCreated : CreateResult → Bool
  | .created _ => true
  | _ => false

/-- Claim: marking paid is only permitted from pending or awaiting-review,
so the operator paid-transition (POST /api/admin/confirm_pay) invoked on
an order in any other state leaves the order's final state unchanged. -/
def PaidGuardClaim : Prop :=
  ∀ (db : DB) (oid : String) (o : Order), o ∈ db.orders → o.order_id = oid →
    o.status ≠ statusPending → o.status ≠ "待审核" →
    (orderByOrderId (adminConfirmPay db oid) oid).map Order.status =
      (orderByOrderId db oid).map Order.status

/-- Claim: order creation is atomic — on success the matched product's
stock is decremented, and on any failure no partial effect remains. -/
def AtomicCreateClaim : Prop :=
  ∀ (db : DB) (p : CreateParams) (env : CreateEnv),
    ((createOrder db p env).2.isCreated = true →
      (findProduct (createOrder db p env).1 p.productId).map Product.stock =
        (findProduct db p.productId).map (fun pr => pr.stock - 1)) ∧
    ((createOrder db p env).2.isCreated = false →
      (createOrder db p env).1 = db)

/-- Claim: every balance mutation is paired with an appended ledger entry
carrying the signed amount and the resulting balance snapshot; stated at
the withdrawal deduction (src/server.js lines 579-583). -/
def LedgerPairingClaim : Prop :=
  ∀ (db : DB) (uid : ℕ) (amount : ℚ) (method oid : String),
    (withdraw db uid amount method oid).2 = WithdrawResult.ok →
    ∃ e : LedgerEntry,
      (withdraw db uid amount method oid).1.ledger = db.ledger ++ [e] ∧
      e.account = uid ∧ e.amount = -amount ∧
      e.resulting = userBalance (withdraw db uid amount method oid).1 uid

/-- Claim: buyer self-attestation (POST /api/order/confirm_payment) does
not itself finalize the order as paid. -/
def BuyerConfirmClaim : Prop :=
  ∀ (db : DB) (oid : String) (uid : ℕ),
    (confirmPayment db oid uid).2 = true →
    ∀ o ∈ (confirmPayment db oid uid).1.orders,
      o.order_id = oid → o.status ≠ statusPaid

/-- Claim: on the settlement rail, for every catalog base amount the
priced usdtAmount equals the base plus a four-decimal nonce lying in
[0.1000, 0.9999]. -/
def NonceAdditiveClaim : Prop :=
  ∀ (base rate feePercent : ℚ) (draw : ℕ), 0 < base → draw < 9000 →
    ∃ n : ℚ, 1/10 ≤ n ∧ n ≤ 9999/10000 ∧ isMul4 n ∧
      (priceOrder base rate feePercent "USDT" draw).1 = base + n

/-- Claim: a useBalance request that exceeds the account's balance but is
below the amount owed is accepted as a partial deduction of the available
balance (leaving the balance at zero) rather than rejected. -/
def PartialDeductionClaim : Prop :=
  ∀ (db : DB) (p : CreateParams) (env : CreateEnv) (prod : Product),
    p.paymentMethod = "USDT" →
    findProduct db p.productId = some prod →
    env.insertFails = false →
    userBalance db p.userId < p.useBalance →
    p.useBalance < (priceOrder (prod.price * (p.quantity : ℚ)) env.rate
      env.feePercent "USDT" env.draw).1 →
    (createOrder db p env).2 = CreateResult.created env.orderId ∧
    userBalance (createOrder db p env).1 p.userId = 0

/-- Claim: on a successful settlement-unit payment, the buyer's referrer
is credited five percent of the amount, with a referral-payout ledger
entry, unless the buyer has no referrer or the bonus rounds to zero.  The
source schema stores no referrer association (the users table has no such
column), so the association is a parameter of the statement. -/
def ReferralClaim (referrerOf : ℕ → Option ℕ) : Prop :=
  ∀ (db : DB) (now : ℤ) (txs : List Tx) (o : Order) (r : ℕ),
    o ∈ pendingSelect db now →
    (findMatch o txs).isSome →
    referrerOf o.user_id = some r →
    round4 (o.usdt_amount * (5/100)) ≠ 0 →
    userBalance (checkUsdtDeposits db now txs) r =
      userBalance db r + o.usdt_amount * (5/100) ∧
    ∃ e ∈ (checkUsdtDeposits db now txs).ledger, e.tag = "referral-payout"

/-!
## Concrete states used by the witnesses and counterexamples
-/

/-- A cancelled settlement-unit order. -/
def c1order : Order :=
  { id := 1, order_id := "ORD-100001", product_name := "widget",
    contact := "RegUser", payment_method := "USDT",
    status := statusCancelled, user_id := 1, usdt_amount := 104321/10000,
    cny_amount := 72, snapshot_rate := 72/10, shipping_info := "{}",
    expires_at := 1800000, created_at := 0, fee_amount := 0, quantity := 1 }

def c1db : DB :=
  { users := [{ id := 1, contact := "alice", balance := 0 }],
    products := [], orders := [c1order], withdraw_orders := [], ledger := [] }

/-- An already-paid order of user 7. -/
def c1paorder : Order :=
  { id := 2, order_id := "ORD-100002", product_name := "widget",
    contact := "RegUser", payment_method := "USDT", status := statusPaid,
    user_id := 7, usdt_amount := 51234/10000, cny_amount := 36,
    snapshot_rate := 72/10, shipping_info := "{}", expires_at := 1800000,
    created_at := 0, fee_amount := 0, quantity := 1 }

/-- A database with one already-paid order of user 7. -/
def c1padb : DB :=
  { users := [{ id := 7, contact := "bob", balance := 3 }],
    products := [], orders := [c1paorder],
    withdraw_orders := [], ledger := [] }

/-- An expired pending settlement-unit order. -/
def c2order : Order :=
  { id := 1, order_id := "ORD-200001", product_name := "widget",
    contact := "RegUser", payment_method := "USDT",
    status := statusPending, user_id := 1, usdt_amount := 104321/10000,
    cny_amount := 72, snapshot_rate := 72/10, shipping_info := "{}",
    expires_at := 1800000, created_at := 0, fee_amount := 0, quantity := 1 }

def c2db : DB :=
  { users := [{ id := 1, contact := "alice", balance := 0 }],
    products := [], orders := [c2order], withdraw_orders := [], ledger := [] }

/-- A pending settlement-unit order with a nonzero stored fee. -/
def c3order : Order :=
  { id := 1, order_id := "ORD-300001", product_name := "widget",
    contact := "RegUser", payment_method := "USDT",
    status := statusPending, user_id := 1, usdt_amount := 101/10,
    cny_amount := 72, snapshot_rate := 72/10, shipping_info := "{}",
    expires_at := 1800000, created_at := 0, fee_amount := 13/100,
    quantity := 1 }

def c3db : DB :=
  { users := [{ id := 1, contact := "alice", balance := 7 }],
    products := [], orders := [c3order], withdraw_orders := [], ledger := [] }

/-- A buyer with balance 5 and a product priced 10. -/
def c4db : DB :=
  { users := [{ id := 1, contact := "alice", balance := 5 }],
    products := [{ id := 1, name := "widget", price := 10, stock := 3 }],
    orders := [], withdraw_orders := [], ledger := [] }

def c4params : CreateParams :=
  { userId := 1, productId := 1, paymentMethod := "USDT",
    shippingInfo := "{}", quantity := 1, useBalance := 2 }

def c4env : CreateEnv :=
  { nowMs := 0, draw := 3321, orderId := "ORD-400001", rowId := 1,
    rate := 72/10, feePercent := 3, insertFails := true }

/-- A user with balance 20 for the withdrawal scenario. -/
def c5db : DB :=
  { users := [{ id := 1, contact := "alice", balance := 20 }],
    products := [], orders := [], withdraw_orders := [], ledger := [] }

/-- A pending order awaiting the buyer's self-attestation. -/
def c6order : Order :=
  { id := 1, order_id := "ORD-600001", product_name := "widget",
    contact := "RegUser", payment_method := "支付宝",
    status := statusPending, user_id := 1, usdt_amount := 10,
    cny_amount := 7416/100, snapshot_rate := 72/10, shipping_info := "{}",
    expires_at := 1800000, created_at := 0, fee_amount := 216/100,
    quantity := 1 }

def c6db : DB :=
  { users := [{ id := 1, contact := "alice", balance := 0 }],
    products := [], orders := [c6order], withdraw_orders := [], ledger := [] }

/-- A buyer with balance 5 requesting a deduction of 10 on an order owed
10.4321. -/
def c8db : DB :=
  { users := [{ id := 1, contact := "alice", balance := 5 }],
    products := [{ id := 1, name := "widget", price := 10, stock := 3 }],
    orders := [], withdraw_orders := [], ledger := [] }

def c8params : CreateParams :=
  { userId := 1, productId := 1, paymentMethod := "USDT",
    shippingInfo := "{}", quantity := 1, useBalance := 10 }

def c8env : CreateEnv :=
  { nowMs := 0, draw := 3321, orderId := "ORD-800001", rowId := 1,
    rate := 72/10, feePercent := 3, insertFails := false }

/-- Two users; user 1 owns a pending settlement-unit order that the
evidence pays exactly; user 2 plays the part of the referrer. -/
def c9order : Order :=
  { id := 1, order_id := "ORD-900001", product_name := "widget",
    contact := "RegUser", payment_method := "USDT",
    status := statusPending, user_id := 1, usdt_amount := 101/10,
    cny_amount := 72, snapshot_rate := 72/10, shipping_info := "{}",
    expires_at := 1800000, created_at := 0, fee_amount := 0, quantity := 1 }

def c9db : DB :=
  { users := [{ id := 1, contact := "alice", balance := 0 },
              { id := 2, contact := "carol", balance := 0 }],
    products := [], orders := [c9order], withdraw_orders := [], ledger := [] }

/-- A buyer with balance 9 and a product in stock for the
create-then-cancel scenario. -/
def c10db : DB :=
  { users := [{ id := 1, contact := "alice", balance := 9 }],
    products := [{ id := 1, name := "widget", price := 10, stock := 4 }],
    orders := [], withdraw_orders := [], ledger := [] }

def c10params : CreateParams :=
  { userId := 1, productId := 1, paymentMethod := "USDT",
    shippingInfo := "{}", quantity := 1, useBalance := 2 }

def c10env : CreateEnv :=
  { nowMs := 0, draw := 3321, orderId := "ORD-X00001", rowId := 1,
    rate := 72/10, feePercent := 3, insertFails := false }

/-!
## Theorems
-/

theorem isMul4_iff (x : ℚ) : isMul4 x ↔ ∃ k : ℤ, x = (k : ℚ) / 10000 := by
  constructor
  · intro h
    exact ⟨⌊x * 10000⌋, h.symm⟩
  · rintro ⟨k, rfl⟩
    unfold isMul4
    have h : (k : ℚ) / 10000 * 10000 = (k : ℚ) := by
      field_simp
    rw [h, Int.floor_intCast]

theorem round4_eq_self {x : ℚ} (h : isMul4 x) : round4 x = x := by
  rcases (isMul4_iff x).mp h with ⟨k, rfl⟩
  unfold round4 roundTo
  have h1 : (k : ℚ) / 10000 * (10 : ℚ) ^ 4 = (k : ℚ) := by
    norm_num
  rw [h1]
  have h2 : ⌊(k : ℚ) + 1/2⌋ = k := by
    rw [add_comm, Int.floor_add_int]
    norm_num
  rw [h2]
  norm_num

theorem isMul4_round4 (x : ℚ) : isMul4 (round4 x) := by
  rw [isMul4_iff]
  exact ⟨⌊x * (10 : ℚ) ^ 4 + 1/2⌋, by unfold round4 roundTo; norm_num⟩

theorem isMul4_sub {x y : ℚ} (hx : isMul4 x) (hy : isMul4 y) :
    isMul4 (x - y) := by
  rcases (isMul4_iff x).mp hx with ⟨k, rfl⟩
  rcases (isMul4_iff y).mp hy with ⟨l, rfl⟩
  rw [isMul4_iff]
  exact ⟨k - l, by push_cast; ring⟩

/-!
## Frame lemmas for the row-wise updates
-/

theorem findUser_updateUserBalance (db : DB) (uid v : ℕ) (f : ℚ → ℚ) :
    findUser (updateUserBalance db uid f) v =
      (findUser db v).map
        (fun u => if u.id = uid then { u with balance := f u.balance } else u) := by
  unfold findUser updateUserBalance
  simp only [List.find?_map]
  have hp : ((fun u => u.id == v) ∘ fun u =>
      if u.id = uid then { u with balance := f u.balance } else u) =
      (fun u : User => u.id == v) := by
    funext u
    by_cases h : u.id = uid <;> simp [h]
  rw [hp]

theorem findUser_updateUserBalance_ne (db : DB) {uid v : ℕ} (f : ℚ → ℚ)
    (h : v ≠ uid) :
    findUser (updateUserBalance db uid f) v = findUser db v := by
  rw [findUser_updateUserBalance]
  cases hf : findUser db v with
  | none => rfl
  | some u =>
      have hu : u.id = v := by simpa using List.find?_some hf
      have hne : ¬ u.id = uid := by rw [hu]; exact h
      simp [hne]

theorem userBalance_updateUserBalance_self (db : DB) (uid : ℕ) (f : ℚ → ℚ)
    (h : (findUser db uid).isSome) :
    userBalance (updateUserBalance db uid f) uid = f (userBalance db uid) := by
  unfold userBalance
  rw [findUser_updateUserBalance]
  cases hf : findUser db uid with
  | none => rw [hf] at h; simp at h
  | some u =>
      have hu : u.id = uid := by simpa using List.find?_some hf
      simp [hu]

theorem userBalance_updateUserBalance_ne (db : DB) {uid v : ℕ} (f : ℚ → ℚ)
    (h : v ≠ uid) :
    userBalance (updateUserBalance db uid f) v = userBalance db v := by
  unfold userBalance
  rw [findUser_updateUserBalance_ne db f h]

theorem orderById_setOrderStatusById (db : DB) (i : ℕ) (st : String) (j : ℕ) :
    orderById (setOrderStatusById db i st) j =
      (orderById db j).map
        (fun o => if o.id = i then { o with status := st } else o) := by
  unfold orderById setOrderStatusById
  simp only [List.find?_map]
  have hp : ((fun o => o.id == j) ∘ fun o =>
      if o.id = i then { o with status := st } else o) =
      (fun o : Order => o.id == j) := by
    funext o
    by_cases h : o.id = i <;> simp [h]
  rw [hp]

theorem orderById_setOrderStatusById_ne (db : DB) {i : ℕ} (st : String)
    {j : ℕ} (h : j ≠ i) :
    orderById (setOrderStatusById db i st) j = orderById db j := by
  rw [orderById_setOrderStatusById]
  cases hf : orderById db j with
  | none => rfl
  | some o =>
      have ho : o.id = j := by simpa using List.find?_some hf
      have hne : ¬ o.id = i := by rw [ho]; exact h
      simp [hne]

theorem orderByOrderId_setOrderStatusByOrderId (db : DB) (oid : String)
    (st : String) (x : String) :
    orderByOrderId (setOrderStatusByOrderId db oid st) x =
      (orderByOrderId db x).map
        (fun o => if o.order_id = oid then { o with status := st } else o) := by
  unfold orderByOrderId setOrderStatusByOrderId
  simp only [List.find?_map]
  have hp : ((fun o => o.order_id == x) ∘ fun o =>
      if o.order_id = oid then { o with status := st } else o) =
      (fun o : Order => o.order_id == x) := by
    funext o
    by_cases h : o.order_id = oid <;> simp [h]
  rw [hp]

theorem eq_of_mem_of_nodup_ids {l : List Order} {o p : Order}
    (ho : o ∈ l) (hp : p ∈ l) (hnd : (l.map Order.id).Nodup)
    (h : o.id = p.id) : o = p :=
  List.inj_on_of_nodup_map hnd ho hp h

theorem find?_id_of_nodup {l : List Order} {o : Order} (ho : o ∈ l)
    (hnd : (l.map Order.id).Nodup) :
    l.find? (fun x => x.id == o.id) = some o := by
  have hs : (l.find? (fun x => x.id == o.id)).isSome := by
    rw [List.find?_isSome]
    exact ⟨o, ho, by simp⟩
  obtain ⟨x, hx⟩ := Option.isSome_iff_exists.mp hs
  have hxl := List.mem_of_find?_eq_some hx
  have hxid : x.id = o.id := by simpa using List.find?_some hx
  rw [hx]
  exact congrArg some (eq_of_mem_of_nodup_ids hxl ho hnd hxid)

theorem orderById_of_mem {db : DB} {o : Order} (ho : o ∈ db.orders)
    (hnd : (db.orders.map Order.id).Nodup) :
    orderById db o.id = some o :=
  find?_id_of_nodup ho hnd

/-!
## Frame lemmas for the reconciler loop
-/

theorem processOrder_ledger (db : DB) (txs : List Tx) (o : Order) :
    (processOrder db txs o).ledger = db.ledger := by
  unfold processOrder
  cases findMatch o txs with
  | none => rfl
  | some tx =>
      dsimp only
      split <;> rfl

theorem processOrder_products (db : DB) (txs : List Tx) (o : Order) :
    (processOrder db txs o).products = db.products := by
  unfold processOrder
  cases findMatch o txs with
  | none => rfl
  | some tx =>
      dsimp only
      split <;> rfl

theorem orderById_updateUserBalance (db : DB) (uid : ℕ) (f : ℚ → ℚ)
    (j : ℕ) : orderById (updateUserBalance db uid f) j = orderById db j := rfl

theorem findUser_setOrderStatusById (db : DB) (i : ℕ) (st : String)
    (v : ℕ) : findUser (setOrderStatusById db i st) v = findUser db v := rfl

theorem processOrder_findUser_ne (db : DB) (txs : List Tx) (o : Order)
    {v : ℕ} (h : v ≠ o.user_id) :
    findUser (processOrder db txs o) v = findUser db v := by
  unfold processOrder
  cases findMatch o txs with
  | none => rfl
  | some tx =>
      dsimp only
      split
      · rw [findUser_updateUserBalance_ne _ _ h, findUser_setOrderStatusById]
      · rw [findUser_setOrderStatusById]

theorem processOrder_orderById_ne (db : DB) (txs : List Tx) (o : Order)
    {j : ℕ} (h : j ≠ o.id) :
    orderById (processOrder db txs o) j = orderById db j := by
  unfold processOrder
  cases findMatch o txs with
  | none => rfl
  | some tx =>
      dsimp only
      split
      · rw [orderById_updateUserBalance, orderById_setOrderStatusById_ne _ _ h]
      · rw [orderById_setOrderStatusById_ne _ _ h]

theorem foldl_processOrder_ledger (txs : List Tx) :
    ∀ (l : List Order) (db : DB),
      (l.foldl (fun d o => processOrder d txs o) db).ledger = db.ledger := by
  intro l
  induction l with
  | nil => intro db; rfl
  | cons a l ih =>
      intro db
      rw [List.foldl_cons, ih, processOrder_ledger]

theorem foldl_processOrder_products (txs : List Tx) :
    ∀ (l : List Order) (db : DB),
      (l.foldl (fun d o => processOrder d txs o) db).products = db.products := by
  intro l
  induction l with
  | nil => intro db; rfl
  | cons a l ih =>
      intro db
      rw [List.foldl_cons, ih, processOrder_products]

theorem foldl_processOrder_findUser (txs : List Tx) (v : ℕ) :
    ∀ (l : List Order) (db : DB), (∀ o ∈ l, o.user_id ≠ v) →
      findUser (l.foldl (fun d o => processOrder d txs o) db) v =
        findUser db v := by
  intro l
  induction l with
  | nil => intro db _; rfl
  | cons a l ih =>
      intro db h
      rw [List.foldl_cons,
        ih _ (fun o ho => h o (List.mem_cons_of_mem a ho)),
        processOrder_findUser_ne db txs a (h a (List.mem_cons_self a l)).symm]

theorem foldl_processOrder_orderById (txs : List Tx) (j : ℕ) :
    ∀ (l : List Order) (db : DB), (∀ o ∈ l, o.id ≠ j) →
      orderById (l.foldl (fun d o => processOrder d txs o) db) j =
        orderById db j := by
  intro l
  induction l with
  | nil => intro db _; rfl
  | cons a l ih =>
      intro db h
      rw [List.foldl_cons,
        ih _ (fun o ho => h o (List.mem_cons_of_mem a ho)),
        processOrder_orderById_ne db txs a (h a (List.mem_cons_self a l)).symm]

theorem isMul4_add {x y : ℚ} (hx : isMul4 x) (hy : isMul4 y) :
    isMul4 (x + y) := by
  rcases (isMul4_iff x).mp hx with ⟨k, rfl⟩
  rcases (isMul4_iff y).mp hy with ⟨l, rfl⟩
  rw [isMul4_iff]
  exact ⟨k + l, by push_cast; ring⟩

/-!
## C2: the Reconciler never finalizes an expired order
-/

/-- C2: an order whose expiry lies at or before the time a Reconciler
cycle runs is left entirely untouched by the cycle — in particular it is
never transitioned to paid — no matter what the fetched evidence list
contains, because the pending selection requires expires_at > NOW(). -/
theorem reconciler_never_pays_expired (db : DB) (now : ℤ) (txs : List Tx)
    (o : Order) (ho : o ∈ db.orders)
    (hnd : (db.orders.map Order.id).Nodup)
    (hexp : o.expires_at ≤ now) :
    orderById (checkUsdtDeposits db now txs) o.id = some o := by
  unfold checkUsdtDeposits
  have hframe : ∀ p ∈ pendingSelect db now, p.id ≠ o.id := by
    intro p hp hpid
    have hpm : p ∈ db.orders := List.mem_of_mem_filter hp
    have hsel := List.of_mem_filter hp
    have hpo : p = o := eq_of_mem_of_nodup_ids hpm ho hnd hpid
    subst hpo
    simp only [Bool.and_eq_true, decide_eq_true_eq, beq_iff_eq] at hsel
    exact absurd hsel.2 (not_lt.mpr hexp)
  rw [foldl_processOrder_orderById txs o.id _ db hframe]
  exact orderById_of_mem ho hnd

/-- Witness for C2 at a concrete expired order and a transfer that pays
its amount exactly. -/
theorem reconciler_never_pays_expired_witness :
    c2order ∈ c2db.orders ∧ c2order.expires_at ≤ 2000000 ∧
    orderById (checkUsdtDeposits c2db 2000000 [⟨10432100, 10⟩])
      c2order.id = some c2order :=
  ⟨List.mem_singleton.mpr rfl, by decide,
    reconciler_never_pays_expired c2db 2000000 [⟨10432100, 10⟩] c2order
      (List.mem_singleton.mpr rfl) (by decide) (by decide)⟩

/-!
## C1: the guarded, idempotent paid transition
-/

/-- Counterexample to C1 as stated: POST /api/admin/confirm_pay carries no
status guard, so invoking it on a cancelled order changes the order's
final state from cancelled to paid. -/
theorem confirm_pay_unguarded_cex : ¬ PaidGuardClaim := by
  intro h
  have h2 := h c1db "ORD-100001" c1order (List.mem_singleton.mpr rfl) rfl
    (by decide) (by decide)
  exact absurd h2 (by decide)

/-- C1 amended: the buyer path and the Reconciler transition to paid only
from pending, while the operator path sets the status to paid from any
state whatsoever; all three paths are idempotent and credit no balance on
re-invocation — the operator handler never touches users or ledger and
applying it twice equals applying it once, the buyer handler is a strict
no-op when no pending matching order exists and never touches users, and
the Reconciler only ever selects pending, unexpired settlement-unit
orders. -/
theorem paid_transition_amended (db : DB) (oid : String) (uid : ℕ)
    (now : ℤ) :
    (adminConfirmPay db oid).users = db.users ∧
    (adminConfirmPay db oid).ledger = db.ledger ∧
    adminConfirmPay (adminConfirmPay db oid) oid = adminConfirmPay db oid ∧
    ((∀ o ∈ db.orders, o.order_id = oid → o.user_id = uid →
        o.status ≠ statusPending) →
      confirmPayment db oid uid = (db, false)) ∧
    (confirmPayment db oid uid).1.users = db.users ∧
    (∀ o ∈ pendingSelect db now, o.status = statusPending ∧
      o.payment_method = "USDT" ∧ now < o.expires_at) := by
  refine ⟨rfl, rfl, ?_, ?_, ?_, ?_⟩
  · unfold adminConfirmPay setOrderStatusByOrderId
    simp only [List.map_map]
    have hg : ((fun o : Order =>
        if o.order_id = oid then { o with status := statusPaid } else o) ∘
        (fun o : Order =>
        if o.order_id = oid then { o with status := statusPaid } else o)) =
        (fun o : Order =>
        if o.order_id = oid then { o with status := statusPaid } else o) := by
      funext o
      by_cases h : o.order_id = oid <;> simp [h]
    rw [hg]
  · intro hno
    unfold confirmPayment
    have hnone : db.orders.find? (fun o =>
        o.order_id == oid && o.user_id == uid &&
        o.status == statusPending) = none := by
      rw [List.find?_eq_none]
      intro o ho hcontra
      simp only [Bool.and_eq_true, beq_iff_eq] at hcontra
      exact hno o ho hcontra.1.1 hcontra.1.2 hcontra.2
    rw [hnone]
  · unfold confirmPayment
    cases db.orders.find? (fun o =>
        o.order_id == oid && o.user_id == uid &&
        o.status == statusPending) <;> rfl
  · intro o ho
    have hsel := List.of_mem_filter ho
    simp only [Bool.and_eq_true, beq_iff_eq, decide_eq_true_eq] at hsel
    exact ⟨hsel.1.1, hsel.1.2, hsel.2⟩

/-- Witness for the amended C1 at a database whose only order is already
paid: re-invoking the operator path is a no-op on the state, and the
buyer path fails without effect. -/
theorem paid_transition_amended_witness :
    adminConfirmPay (adminConfirmPay c1padb "ORD-100002") "ORD-100002" =
      adminConfirmPay c1padb "ORD-100002" ∧
    confirmPayment c1padb "ORD-100002" 7 = (c1padb, false) := by
  obtain ⟨-, -, h3, h4, -, -⟩ :=
    paid_transition_amended c1padb "ORD-100002" 7 0
  refine ⟨h3, h4 ?_⟩
  intro o ho h1 h2
  have heq : o = c1paorder := List.mem_singleton.mp ho
  subst heq
  decide

/-!
## C6: buyer self-attestation
-/

/-- Counterexample to C6 as stated: a successful
POST /api/order/confirm_payment directly sets the order's status to paid,
with no further operator or Reconciler action required. -/
theorem buyer_confirm_finalizes_cex : ¬ BuyerConfirmClaim := by
  intro h
  have hmem : ({ c6order with status := statusPaid } : Order) ∈
      (confirmPayment c6db "ORD-600001" 1).1.orders := by
    have hres : (confirmPayment c6db "ORD-600001" 1).1.orders =
        [{ c6order with status := statusPaid }] := by rfl
    rw [hres]
    exact List.mem_singleton.mpr rfl
  exact h c6db "ORD-600001" 1 (by decide) _ hmem rfl rfl

/-- C6 amended: the buyer self-attestation handler itself finalizes the
order — on a pending order of the requesting user it succeeds and sets
the status to paid directly, touching neither balances nor ledger. -/
theorem buyer_confirm_direct (db : DB) (oid : String) (uid : ℕ) (o : Order)
    (ho : o ∈ db.orders) (hoid : o.order_id = oid) (huid : o.user_id = uid)
    (hst : o.status = statusPending) :
    (confirmPayment db oid uid).2 = true ∧
    (orderByOrderId (confirmPayment db oid uid).1 oid).map Order.status =
      some statusPaid ∧
    (confirmPayment db oid uid).1.users = db.users ∧
    (confirmPayment db oid uid).1.ledger = db.ledger := by
  have hs : (db.orders.find? (fun x => x.order_id == oid &&
      x.user_id == uid && x.status == statusPending)).isSome := by
    rw [List.find?_isSome]
    exact ⟨o, ho, by simp [hoid, huid, hst]⟩
  obtain ⟨o1, ho1⟩ := Option.isSome_iff_exists.mp hs
  unfold confirmPayment
  rw [ho1]
  dsimp only
  refine ⟨rfl, ?_, rfl, rfl⟩
  rw [orderByOrderId_setOrderStatusByOrderId]
  have hs2 : (db.orders.find? (fun x => x.order_id == oid)).isSome := by
    rw [List.find?_isSome]
    exact ⟨o, ho, by simp [hoid]⟩
  obtain ⟨o2, ho2⟩ := Option.isSome_iff_exists.mp hs2
  unfold orderByOrderId
  rw [ho2]
  have h2 : o2.order_id = oid := by simpa using List.find?_some ho2
  simp [h2]

/-- Witness for the amended C6 at a concrete pending order. -/
theorem buyer_confirm_direct_witness :
    (confirmPayment c6db "ORD-600001" 1).2 = true ∧
    (orderByOrderId (confirmPayment c6db "ORD-600001" 1).1
      "ORD-600001").map Order.status = some statusPaid := by
  obtain ⟨h1, h2, -, -⟩ := buyer_confirm_direct c6db "ORD-600001" 1 c6order
    (List.mem_singleton.mpr rfl) rfl rfl rfl
  exact ⟨h1, h2⟩

/-!
## C5: ledger pairing and conservation
-/

/-- Counterexample to C5 as stated: a successful withdrawal mutates the
balance but appends no ledger entry — there is no ledger table in the
schema at all, so the ledger stays empty. -/
theorem withdraw_no_ledger_cex : ¬ LedgerPairingClaim := by
  intro h
  obtain ⟨e, he, -, -, -⟩ := h c5db 1 10 "USDT" "WITH-000001" (by rfl)
  have hl : (withdraw c5db 1 10 "USDT" "WITH-000001").1.ledger = [] := by rfl
  rw [hl] at he
  simp [c5db] at he

/-- The state equation of an accepted withdrawal. -/
theorem withdraw_ok_eq (db : DB) (uid : ℕ) (amount : ℚ) (method oid : String)
    (u : User) (hf : findUser db uid = some u) (h1 : ¬ amount < 10)
    (h2 : ¬ u.balance < amount) :
    withdraw db uid amount method oid =
      (updateUserBalance
        { db with withdraw_orders := db.withdraw_orders ++
            [newWithdrawRow uid amount method oid] }
        uid (fun b => b - amount), WithdrawResult.ok) := by
  unfold withdraw
  rw [hf]
  dsimp only
  rw [if_neg h1, if_neg h2]

/-- C5 amended: the source maintains no ledger — none of the
balance-mutating operations (withdrawal reservation, order-creation
deduction, Reconciler overpayment credit) appends a ledger entry; each
successful withdrawal changes the balance by exactly its signed amount,
with no paired record. -/
theorem balance_mutations_unledgered (db : DB) (uid : ℕ) (amount : ℚ)
    (method oid : String) (p : CreateParams) (env : CreateEnv)
    (now : ℤ) (txs : List Tx) :
    (withdraw db uid amount method oid).1.ledger = db.ledger ∧
    (createOrder db p env).1.ledger = db.ledger ∧
    (checkUsdtDeposits db now txs).ledger = db.ledger ∧
    ((withdraw db uid amount method oid).2 = WithdrawResult.ok →
      userBalance (withdraw db uid amount method oid).1 uid =
        userBalance db uid - amount) := by
  refine ⟨?_, ?_, ?_, ?_⟩
  · unfold withdraw
    cases findUser db uid with
    | none => rfl
    | some u =>
        dsimp only
        split
        · rfl
        · split <;> rfl
  · unfold createOrder
    cases findProduct db p.productId with
    | none => rfl
    | some prod =>
        dsimp only
        split
        · split
          · rfl
          · split
            · rfl
            · split <;> rfl
        · split <;> rfl
  · exact foldl_processOrder_ledger txs (pendingSelect db now) db
  · intro hok
    cases hf : findUser db uid with
    | none =>
        unfold withdraw at hok
        rw [hf] at hok
        exact absurd hok (by simp)
    | some u =>
        by_cases h1 : amount < 10
        · unfold withdraw at hok
          rw [hf] at hok
          dsimp only at hok
          rw [if_pos h1] at hok
          exact absurd hok (by simp)
        · by_cases h2 : u.balance < amount
          · unfold withdraw at hok
            rw [hf] at hok
            dsimp only at hok
            rw [if_neg h1, if_pos h2] at hok
            exact absurd hok (by simp)
          · rw [withdraw_ok_eq db uid amount method oid u hf h1 h2]
            have hsome : (findUser
                { db with withdraw_orders := db.withdraw_orders ++
                    [newWithdrawRow uid amount method oid] } uid).isSome := by
              rw [show findUser
                { db with withdraw_orders := db.withdraw_orders ++
                    [newWithdrawRow uid amount method oid] } uid =
                findUser db uid from rfl, hf]
              rfl
            rw [userBalance_updateUserBalance_self _ _ _ hsome]
            rfl

/-- Witness for the amended C5 at a concrete accepted withdrawal:
balance 20 drops to 10 while the ledger stays empty. -/
theorem balance_mutations_unledgered_witness :
    (withdraw c5db 1 10 "USDT" "WITH-000002").1.ledger = [] ∧
    userBalance (withdraw c5db 1 10 "USDT" "WITH-000002").1 1 = 10 := by
  obtain ⟨h1, -, -, h4⟩ := balance_mutations_unledgered c5db 1 10 "USDT"
    "WITH-000002" ⟨1, 1, "USDT", "{}", 1, 0⟩
    ⟨0, 0, "ORD-000000", 0, 7, 0, true⟩ 0 []
  refine ⟨h1.trans rfl, (h4 (by rfl)).trans ?_⟩
  norm_num [c5db, userBalance, findUser]

/-!
## C7: pricing
-/

/-- Counterexample to C7 as stated: the settlement-rail usdtAmount is the
noised base passed through toFixed(4), so for a base with more than four
fractional digits it is not the base plus any nonce in [0.1000, 0.9999].
At base 0.00001 and draw 0 the result is exactly 0.1000, which is less
than base + 0.1000. -/
theorem nonce_rounding_cex : ¬ NonceAdditiveClaim := by
  intro h
  obtain ⟨n, hn1, -, -, heq⟩ := h (1/100000) 7 0 0 (by norm_num) (by norm_num)
  have hval : (priceOrder (1/100000) 7 0 "USDT" 0).1 = 1/10 := by
    norm_num [priceOrder, nonceOf, round4, roundTo]
  rw [hval] at heq
  have hn : n = 1/10 - 1/100000 := by linarith
  rw [hn] at hn1
  norm_num at hn1

/-- C7 amended: for a non-settlement rail the fee is
base * rate * feePercent / 100, the fiat amount is base * rate plus the
fee, and usdtAmount is the base unchanged; for the settlement rail
usdtAmount is round4(base + nonce) — equal to base + nonce whenever the
base has at most four fractional digits — with the nonce a four-decimal
value in [0.1000, 0.9999], no fee, and the fiat amount computed
deterministically from the un-noised base. -/
theorem price_order_spec (base rate feePercent : ℚ) (m : String) (draw : ℕ)
    (hd : draw < 9000) :
    (m ≠ "USDT" →
      priceOrder base rate feePercent m draw =
        (base, base * rate + base * rate * (feePercent / 100),
          base * rate * (feePercent / 100))) ∧
    (priceOrder base rate feePercent "USDT" draw).1 =
      round4 (base + nonceOf draw) ∧
    (isMul4 base →
      (priceOrder base rate feePercent "USDT" draw).1 =
        base + nonceOf draw) ∧
    1/10 ≤ nonceOf draw ∧ nonceOf draw ≤ 9999/10000 ∧
    isMul4 (nonceOf draw) ∧
    (priceOrder base rate feePercent "USDT" draw).2.1 = base * rate ∧
    (priceOrder base rate feePercent "USDT" draw).2.2 = 0 := by
  have hm4 : isMul4 (nonceOf draw) := by
    rw [isMul4_iff]
    refine ⟨((1000 + draw : ℕ) : ℤ), ?_⟩
    unfold nonceOf
    push_cast
    ring
  have hlb : (1/10 : ℚ) ≤ nonceOf draw := by
    unfold nonceOf
    rw [le_div_iff₀ (by norm_num : (0:ℚ) < 10000)]
    push_cast
    linarith [Nat.cast_nonneg (α := ℚ) draw]
  have hub2 : nonceOf draw ≤ 9999/10000 := by
    unfold nonceOf
    rw [div_le_div_iff₀ (by norm_num) (by norm_num)]
    push_cast
    have hle : (draw : ℚ) ≤ 8999 := by
      exact_mod_cast Nat.le_of_lt_succ hd
    linarith
  refine ⟨?_, ?_, ?_, hlb, hub2, hm4, ?_, ?_⟩
  · intro hne
    unfold priceOrder
    rw [if_neg hne]
  · unfold priceOrder
    rw [if_pos rfl]
  · intro h4
    unfold priceOrder
    rw [if_pos rfl]
    exact round4_eq_self (isMul4_add h4 hm4)
  · unfold priceOrder
    rw [if_pos rfl]
  · unfold priceOrder
    rw [if_pos rfl]

/-- Witness for the amended C7 at base 10, rate 7.2, fee 3 percent. -/
theorem price_order_spec_witness :
    (priceOrder 10 (72/10) 3 "USDT" 3321).1 = 10 + nonceOf 3321 ∧
    (priceOrder 10 (72/10) 3 "支付宝" 3321).2.2 =
      10 * (72/10) * (3/100) := by
  obtain ⟨h1, -, h3, -, -, -, -, -⟩ :=
    price_order_spec 10 (72/10) 3 "支付宝" 3321 (by norm_num)
  refine ⟨h3 ((isMul4_iff 10).mpr ⟨100000, by norm_num⟩), ?_⟩
  rw [h1 (by decide)]

/-!
## Helper equations for the order-creation handler
-/

theorem priceOrder_usdt (base rate feePercent : ℚ) (draw : ℕ) :
    priceOrder base rate feePercent "USDT" draw =
      (round4 (base + nonceOf draw), base * rate, 0) := by
  unfold priceOrder
  rw [if_pos rfl]

/-- Order creation never touches the products table: there is no stock
decrement anywhere in the handler. -/
theorem createOrder_products (db : DB) (p : CreateParams)
    (env : CreateEnv) : (createOrder db p env).1.products = db.products := by
  unfold createOrder
  cases findProduct db p.productId with
  | none => rfl
  | some prod =>
      dsimp only
      split
      · split
        · rfl
        · split
          · rfl
          · split <;> rfl
      · split <;> rfl

/-- Rejection when the requested deduction exceeds the balance. -/
theorem createOrder_insufficient (db : DB) (p : CreateParams)
    (env : CreateEnv) (prod : Product)
    (hm : p.paymentMethod = "USDT")
    (hp : findProduct db p.productId = some prod)
    (hub : 0 < p.useBalance)
    (hgt : userBalance db p.userId < p.useBalance) :
    createOrder db p env = (db, CreateResult.insufficientBalance) := by
  unfold createOrder
  rw [hp]
  dsimp only
  rw [hm, priceOrder_usdt]
  dsimp only
  rw [if_pos (⟨rfl, hub⟩ : ("USDT" : String) = "USDT" ∧ p.useBalance > 0),
    if_pos hgt]

/-- Rejection when the requested deduction reaches the amount owed. -/
theorem createOrder_excessive (db : DB) (p : CreateParams)
    (env : CreateEnv) (prod : Product)
    (hm : p.paymentMethod = "USDT")
    (hp : findProduct db p.productId = some prod)
    (hub : 0 < p.useBalance)
    (hbal : p.useBalance ≤ userBalance db p.userId)
    (hge : round4 (prod.price * (p.quantity : ℚ) + nonceOf env.draw) ≤
      p.useBalance) :
    createOrder db p env = (db, CreateResult.balanceTooHigh) := by
  unfold createOrder
  rw [hp]
  dsimp only
  rw [hm, priceOrder_usdt]
  dsimp only
  rw [if_pos (⟨rfl, hub⟩ : ("USDT" : String) = "USDT" ∧ p.useBalance > 0),
    if_neg (not_lt.mpr hbal), if_pos hge]

/-- The accepted settlement-rail creation with a deduction, insert
failing: the deduction is already committed and nothing else happens. -/
theorem createOrder_deduct_fail (db : DB) (p : CreateParams)
    (env : CreateEnv) (prod : Product)
    (hm : p.paymentMethod = "USDT")
    (hp : findProduct db p.productId = some prod)
    (hub : 0 < p.useBalance)
    (hbal : p.useBalance ≤ userBalance db p.userId)
    (howed : p.useBalance <
      round4 (prod.price * (p.quantity : ℚ) + nonceOf env.draw))
    (hfail : env.insertFails = true) :
    createOrder db p env =
      (updateUserBalance db p.userId (fun b => b - p.useBalance),
        CreateResult.insertError) := by
  unfold createOrder
  rw [hp]
  dsimp only
  rw [hm, priceOrder_usdt]
  dsimp only
  rw [if_pos (⟨rfl, hub⟩ : ("USDT" : String) = "USDT" ∧ p.useBalance > 0),
    if_neg (not_lt.mpr hbal), if_neg (not_le.mpr howed), hfail,
    if_pos rfl]

/-- The accepted settlement-rail creation with a deduction, insert
succeeding: the deduction plus the appended order row. -/
theorem createOrder_deduct_ok (db : DB) (p : CreateParams)
    (env : CreateEnv) (prod : Product)
    (hm : p.paymentMethod = "USDT")
    (hp : findProduct db p.productId = some prod)
    (hub : 0 < p.useBalance)
    (hbal : p.useBalance ≤ userBalance db p.userId)
    (howed : p.useBalance <
      round4 (prod.price * (p.quantity : ℚ) + nonceOf env.draw))
    (hok : env.insertFails = false) :
    createOrder db p env =
      ({ updateUserBalance db p.userId (fun b => b - p.useBalance) with
          orders := db.orders ++
            [newOrderRow p env prod.name
              (round4 (round4 (prod.price * (p.quantity : ℚ) +
                nonceOf env.draw) - p.useBalance))
              (prod.price * (p.quantity : ℚ) * env.rate) 0] },
        CreateResult.created env.orderId) := by
  unfold createOrder
  rw [hp]
  dsimp only
  rw [hm, priceOrder_usdt]
  dsimp only
  rw [if_pos (⟨rfl, hub⟩ : ("USDT" : String) = "USDT" ∧ p.useBalance > 0),
    if_neg (not_lt.mpr hbal), if_neg (not_le.mpr howed), hok]
  rfl

/-- A positive accepted deduction implies the user row exists (otherwise
the balance reads as zero and the request is rejected first). -/
theorem findUser_isSome_of_le (db : DB) (uid : ℕ) {x : ℚ} (hub : 0 < x)
    (hbal : x ≤ userBalance db uid) : (findUser db uid).isSome := by
  unfold userBalance at hbal
  cases hf : findUser db uid with
  | none =>
      rw [hf] at hbal
      exact absurd hbal (not_le.mpr hub)
  | some u => rfl

/-- The committed deduction seen on the balance, for either value of the
insert-failure flag. -/
theorem createOrder_deduct_balance (db : DB) (p : CreateParams)
    (env : CreateEnv) (prod : Product)
    (hm : p.paymentMethod = "USDT")
    (hp : findProduct db p.productId = some prod)
    (hub : 0 < p.useBalance)
    (hbal : p.useBalance ≤ userBalance db p.userId)
    (howed : p.useBalance <
      round4 (prod.price * (p.quantity : ℚ) + nonceOf env.draw)) :
    userBalance (createOrder db p env).1 p.userId =
      userBalance db p.userId - p.useBalance := by
  have hex := findUser_isSome_of_le db p.userId hub hbal
  cases hf : env.insertFails with
  | true =>
      rw [createOrder_deduct_fail db p env prod hm hp hub hbal howed hf]
      exact userBalance_updateUserBalance_self db p.userId _ hex
  | false =>
      rw [createOrder_deduct_ok db p env prod hm hp hub hbal howed hf]
      show userBalance (updateUserBalance db p.userId
        (fun b => b - p.useBalance)) p.userId = _
      exact userBalance_updateUserBalance_self db p.userId _ hex

/-!
## C4: atomicity of order creation
-/

/-- Counterexample to C4 as stated: with the order INSERT failing after
the balance deduction has been committed, the handler leaves a partial
effect — the buyer's balance is already reduced while no order row
exists. -/
theorem create_order_not_atomic_cex : ¬ AtomicCreateClaim := by
  intro h
  have h2 := (h c4db c4params c4env).2
  rw [createOrder_deduct_fail c4db c4params c4env ⟨1, "widget", 10, 3⟩
    rfl rfl (by norm_num [c4params])
    (by norm_num [c4params, show userBalance c4db 1 = 5 from rfl])
    (by norm_num [c4params, c4env, round4, roundTo, nonceOf]) rfl] at h2
  have h3 := h2 rfl
  have h4 := congrArg DB.users h3
  simp only [updateUserBalance, c4db, c4params] at h4
  norm_num at h4

/-- C4 amended: order creation is not atomic and performs no stock
decrement.  On the accepted settlement-rail path with a positive
deduction, the balance deduction is committed before the order INSERT:
the buyer's balance drops by the requested amount whether or not the
insert succeeds, the products table is never touched, a failed insert
leaves no order row while the deduction stands, and a successful insert
appends the order row. -/
theorem create_order_effects (db : DB) (p : CreateParams) (env : CreateEnv)
    (prod : Product)
    (hm : p.paymentMethod = "USDT")
    (hp : findProduct db p.productId = some prod)
    (hub : 0 < p.useBalance)
    (hbal : p.useBalance ≤ userBalance db p.userId)
    (howed : p.useBalance <
      round4 (prod.price * (p.quantity : ℚ) + nonceOf env.draw)) :
    userBalance (createOrder db p env).1 p.userId =
      userBalance db p.userId - p.useBalance ∧
    (createOrder db p env).1.products = db.products ∧
    (env.insertFails = true →
      (createOrder db p env).1.orders = db.orders ∧
      (createOrder db p env).2 = CreateResult.insertError) ∧
    (env.insertFails = false →
      (createOrder db p env).1.orders = db.orders ++
        [newOrderRow p env prod.name
          (round4 (round4 (prod.price * (p.quantity : ℚ) +
            nonceOf env.draw) - p.useBalance))
          (prod.price * (p.quantity : ℚ) * env.rate) 0] ∧
      (createOrder db p env).2 = CreateResult.created env.orderId) := by
  refine ⟨createOrder_deduct_balance db p env prod hm hp hub hbal howed,
    createOrder_products db p env, ?_, ?_⟩
  · intro hf
    rw [createOrder_deduct_fail db p env prod hm hp hub hbal howed hf]
    exact ⟨rfl, rfl⟩
  · intro hf
    rw [createOrder_deduct_ok db p env prod hm hp hub hbal howed hf]
    exact ⟨rfl, rfl⟩

/-- Witness for the amended C4: balance 5 with a deduction of 2, insert
failing — the balance ends at 3 while no order row exists. -/
theorem create_order_effects_witness :
    userBalance (createOrder c4db c4params c4env).1 1 = 3 ∧
    (createOrder c4db c4params c4env).1.orders = [] := by
  obtain ⟨h1, -, h3, -⟩ := create_order_effects c4db c4params c4env
    ⟨1, "widget", 10, 3⟩ rfl rfl (by norm_num [c4params])
    (by norm_num [c4params, show userBalance c4db 1 = 5 from rfl])
    (by norm_num [c4params, c4env, round4, roundTo, nonceOf])
  constructor
  · have h5 : userBalance c4db c4params.userId = 5 := rfl
    rw [show (1 : ℕ) = c4params.userId from rfl, h1, h5]
    norm_num [c4params]
  · exact (h3 rfl).1

/-!
## C8: the balance-deduction cap
-/

/-- Counterexample to C8 as stated: a useBalance request of 10 against a
balance of 5 on an order owed 10.4321 is rejected outright with the
insufficient-balance error and no deduction, not accepted as a partial
deduction of the available balance. -/
theorem partial_deduction_rejected_cex : ¬ PartialDeductionClaim := by
  intro h
  obtain ⟨hc, -⟩ := h c8db c8params c8env ⟨1, "widget", 10, 3⟩ rfl rfl rfl
    (by norm_num [c8params, show userBalance c8db 1 = 5 from rfl])
    (by rw [priceOrder_usdt]
        norm_num [c8params, c8env, round4, roundTo, nonceOf])
  rw [createOrder_insufficient c8db c8params c8env ⟨1, "widget", 10, 3⟩
    rfl rfl (by norm_num [c8params])
    (by norm_num [c8params, show userBalance c8db 1 = 5 from rfl])] at hc
  exact absurd hc (by decide)

/-- C8 amended: a deduction request is accepted only when it does not
exceed the current balance and is strictly below the amount owed; it is
rejected outright (with no deduction) when it exceeds the balance, and
rejected when it reaches the amount owed.  When accepted, exactly the
requested amount is deducted — hence the deduction never exceeds
min(balance, owed) — and for a four-decimal request the remaining owed
amount stays strictly positive. -/
theorem balance_deduction_rules (db : DB) (p : CreateParams)
    (env : CreateEnv) (prod : Product)
    (hm : p.paymentMethod = "USDT")
    (hp : findProduct db p.productId = some prod)
    (hub : 0 < p.useBalance) :
    (userBalance db p.userId < p.useBalance →
      createOrder db p env = (db, CreateResult.insufficientBalance)) ∧
    (p.useBalance ≤ userBalance db p.userId →
      round4 (prod.price * (p.quantity : ℚ) + nonceOf env.draw) ≤
        p.useBalance →
      createOrder db p env = (db, CreateResult.balanceTooHigh)) ∧
    (p.useBalance ≤ userBalance db p.userId →
      p.useBalance < round4 (prod.price * (p.quantity : ℚ) +
        nonceOf env.draw) →
      userBalance (createOrder db p env).1 p.userId =
        userBalance db p.userId - p.useBalance ∧
      p.useBalance ≤ min (userBalance db p.userId)
        (round4 (prod.price * (p.quantity : ℚ) + nonceOf env.draw)) ∧
      (isMul4 p.useBalance →
        0 < round4 (round4 (prod.price * (p.quantity : ℚ) +
          nonceOf env.draw) - p.useBalance))) := by
  refine ⟨fun hgt => createOrder_insufficient db p env prod hm hp hub hgt,
    fun hbal hge => createOrder_excessive db p env prod hm hp hub hbal hge,
    fun hbal howed => ⟨
      createOrder_deduct_balance db p env prod hm hp hub hbal howed,
      le_min hbal (le_of_lt howed), fun h4u => ?_⟩⟩
  rw [round4_eq_self (isMul4_sub (isMul4_round4 _) h4u)]
  exact sub_pos.mpr howed

/-- Witness for the amended C8: the over-balance request is rejected with
no effect on the database. -/
theorem balance_deduction_rules_witness :
    createOrder c8db c8params c8env =
      (c8db, CreateResult.insufficientBalance) := by
  obtain ⟨h1, -, -⟩ := balance_deduction_rules c8db c8params c8env
    ⟨1, "widget", 10, 3⟩ rfl rfl (by norm_num [c8params])
  exact h1 (by norm_num [c8params, show userBalance c8db 1 = 5 from rfl])

/-!
## C3: the Reconciler match rule
-/

/-- Within the match epsilon, a transfer amount (an integer number of
millionths) can only equal a four-decimal order amount exactly. -/
theorem txAmount_eq_of_close (tx : Tx) {x : ℚ} (h4 : isMul4 x)
    (habs : |txAmount tx - x| < 1/1000000) : txAmount tx = x := by
  obtain ⟨k, rfl⟩ := (isMul4_iff x).mp h4
  unfold txAmount at habs ⊢
  have hd : (tx.value : ℚ) / 1000000 - (k : ℚ) / 10000 =
      ((tx.value - 100 * k : ℤ) : ℚ) / 1000000 := by
    push_cast
    ring
  rw [hd] at habs
  have ha : |(tx.value : ℚ) - 100 * (k : ℚ)| < 1 := by
    have h2 := mul_lt_mul_of_pos_right habs
      (by norm_num : (0:ℚ) < 1000000)
    rw [abs_div] at h2
    norm_num at h2
    exact h2
  have ha2 := abs_lt.mp ha
  have hz : tx.value - 100 * k = 0 := by
    have hl : -(1:ℤ) < tx.value - 100 * k := by
      have := ha2.1
      push_cast at this
      exact_mod_cast this
    have hr : (tx.value - 100 * k : ℤ) < 1 := by
      have := ha2.2
      push_cast at this
      exact_mod_cast this
    omega
  have hv : tx.value = 100 * k := by omega
  rw [hv]
  push_cast
  field_simp
  ring

/-- C3: the loop body of a Reconciler cycle, for a processed order with a
four-decimal amount and fee and an existing buyer row.  The order is
matched exactly when the evidence list holds a transfer within 1e-6 of
usdt_amount whose timestamp is at or after the order's creation; with no
match nothing changes; on a match the matched transfer pays the amount
exactly, the order becomes paid, and when the transferred amount exceeds
the amount owed (usdt_amount - fee_amount) by more than 1e-6 the excess
is credited to the buyer's balance, otherwise the balance is unchanged. -/
theorem reconciler_match_rules (db : DB) (txs : List Tx) (o : Order)
    (ho : o ∈ db.orders) (hnd : (db.orders.map Order.id).Nodup)
    (hu : (findUser db o.user_id).isSome)
    (h4 : isMul4 o.usdt_amount) (hf : isMul4 o.fee_amount) :
    ((findMatch o txs).isSome ↔ ∃ tx ∈ txs,
      |txAmount tx - o.usdt_amount| < 1/1000000 ∧
      o.created_at ≤ tx.block_timestamp) ∧
    (findMatch o txs = none → processOrder db txs o = db) ∧
    (∀ tx, findMatch o txs = some tx →
      txAmount tx = o.usdt_amount ∧
      orderById (processOrder db txs o) o.id =
        some { o with status := statusPaid } ∧
      (1/1000000 < txAmount tx - (o.usdt_amount - o.fee_amount) →
        userBalance (processOrder db txs o) o.user_id =
          userBalance db o.user_id +
            (txAmount tx - (o.usdt_amount - o.fee_amount))) ∧
      (¬ 1/1000000 < txAmount tx - (o.usdt_amount - o.fee_amount) →
        userBalance (processOrder db txs o) o.user_id =
          userBalance db o.user_id)) := by
  refine ⟨?_, ?_, ?_⟩
  · unfold findMatch
    rw [List.find?_isSome]
    constructor
    · rintro ⟨tx, htx, hp⟩
      refine ⟨tx, htx, ?_⟩
      simpa [txMatches] using hp
    · rintro ⟨tx, htx, hp⟩
      exact ⟨tx, htx, by simpa [txMatches] using hp⟩
  · intro hnone
    unfold processOrder
    rw [hnone]
  · intro tx htx
    have hmatch : txMatches o tx = true := List.find?_some htx
    simp only [txMatches, Bool.and_eq_true, decide_eq_true_eq] at hmatch
    have heq : txAmount tx = o.usdt_amount :=
      txAmount_eq_of_close tx h4 hmatch.1
    refine ⟨heq, ?_, ?_, ?_⟩
    · unfold processOrder
      rw [htx]
      dsimp only
      split
      · rw [orderById_updateUserBalance, orderById_setOrderStatusById,
          orderById_of_mem ho hnd]
        simp
      · rw [orderById_setOrderStatusById, orderById_of_mem ho hnd]
        simp
    · intro hover
      unfold processOrder
      rw [htx]
      dsimp only
      rw [if_pos hover]
      have hu2 : (findUser (setOrderStatusById db o.id statusPaid)
          o.user_id).isSome := by
        rw [findUser_setOrderStatusById]
        exact hu
      rw [userBalance_updateUserBalance_self _ _ _ hu2]
      have hb : userBalance (setOrderStatusById db o.id statusPaid)
          o.user_id = userBalance db o.user_id := rfl
      rw [hb]
      congr 1
      have hm4 : isMul4 (txAmount tx - (o.usdt_amount - o.fee_amount)) := by
        rw [heq]
        exact isMul4_sub h4 (isMul4_sub h4 hf)
      exact round4_eq_self hm4
    · intro hnot
      unfold processOrder
      rw [htx]
      dsimp only
      rw [if_neg hnot]
      rfl

/-- Witness for C3 at a concrete order (usdt 10.1, stored fee 0.13) paid
exactly by a transfer of 10.1: the order matches, and the overpayment
relative to the amount owed (0.13) is credited to the buyer. -/
theorem reconciler_match_rules_witness :
    findMatch c3order [⟨10100000, 50⟩] = some ⟨10100000, 50⟩ ∧
    userBalance (processOrder c3db [⟨10100000, 50⟩] c3order)
      c3order.user_id = 713/100 := by
  have hfind : findMatch c3order [⟨10100000, 50⟩] =
      some ⟨10100000, 50⟩ := by
    unfold findMatch
    refine List.find?_cons_of_pos _ ?_
    simp only [txMatches, Bool.and_eq_true, decide_eq_true_eq]
    constructor
    · norm_num [txAmount, c3order]
    · norm_num [c3order]
  obtain ⟨-, -, h3⟩ := reconciler_match_rules c3db [⟨10100000, 50⟩]
    c3order (List.mem_singleton.mpr rfl) (by decide) rfl
    ((isMul4_iff _).mpr ⟨101000, by norm_num [c3order]⟩)
    ((isMul4_iff _).mpr ⟨1300, by norm_num [c3order]⟩)
  obtain ⟨-, -, hcred, -⟩ := h3 ⟨10100000, 50⟩ hfind
  refine ⟨hfind, ?_⟩
  rw [hcred (by norm_num [txAmount, c3order])]
  norm_num [txAmount, c3order, show userBalance c3db 1 = 7 from rfl]

/-!
## C9: referral payouts
-/

/-- Counterexample to C9 as stated: on a successful settlement-unit
payment by a buyer whose (externally recorded) referrer is user 2, the
cycle leaves user 2's balance unchanged and writes no referral-payout
record — the code has no referral engine. -/
theorem no_referral_engine_cex :
    ¬ ReferralClaim (fun u => if u = 1 then some 2 else none) := by
  intro h
  have hfind9 : findMatch c9order [⟨10100000, 50⟩] =
      some ⟨10100000, 50⟩ := by
    unfold findMatch
    refine List.find?_cons_of_pos _ ?_
    simp only [txMatches, Bool.and_eq_true, decide_eq_true_eq]
    constructor
    · norm_num [txAmount, c9order]
    · norm_num [c9order]
  have hmem : c9order ∈ pendingSelect c9db 100 := by
    rw [show pendingSelect c9db 100 = [c9order] from rfl]
    exact List.mem_singleton.mpr rfl
  obtain ⟨hbal, -⟩ := h c9db 100 [⟨10100000, 50⟩] c9order 2 hmem
    (by rw [hfind9]; rfl) rfl
    (by norm_num [c9order, round4, roundTo])
  have hframe : findUser (checkUsdtDeposits c9db 100 [⟨10100000, 50⟩]) 2 =
      findUser c9db 2 := by
    unfold checkUsdtDeposits
    refine foldl_processOrder_findUser _ 2 _ _ ?_
    intro o ho
    rw [show pendingSelect c9db 100 = [c9order] from rfl] at ho
    rw [List.mem_singleton.mp ho]
    decide
  have h0 : userBalance (checkUsdtDeposits c9db 100 [⟨10100000, 50⟩]) 2 =
      0 := by
    unfold userBalance
    rw [hframe]
    rfl
  rw [h0, show userBalance c9db 2 = 0 from rfl] at hbal
  norm_num [c9order] at hbal

/-- C9 amended: the code implements no referral engine — a Reconciler
cycle can only ever change the balances of the owners of the orders it
selected, so any account that owns none of them (a referrer in
particular) keeps its user row unchanged, and no ledger record of any
kind is written. -/
theorem reconciler_credits_only_buyers (db : DB) (now : ℤ) (txs : List Tx)
    (v : ℕ) (hv : ∀ o ∈ pendingSelect db now, o.user_id ≠ v) :
    findUser (checkUsdtDeposits db now txs) v = findUser db v ∧
    (checkUsdtDeposits db now txs).ledger = db.ledger := by
  unfold checkUsdtDeposits
  exact ⟨foldl_processOrder_findUser txs v _ db hv,
    foldl_processOrder_ledger txs _ db⟩

/-- Witness for the amended C9: after the cycle that pays user 1's order,
user 2's row is untouched and the ledger is still empty. -/
theorem reconciler_credits_only_buyers_witness :
    findUser (checkUsdtDeposits c9db 100 [⟨10100000, 50⟩]) 2 =
      findUser c9db 2 ∧
    (checkUsdtDeposits c9db 100 [⟨10100000, 50⟩]).ledger = [] := by
  have hv : ∀ o ∈ pendingSelect c9db 100, o.user_id ≠ 2 := by
    intro o ho
    rw [show pendingSelect c9db 100 = [c9order] from rfl] at ho
    rw [List.mem_singleton.mp ho]
    decide
  obtain ⟨h1, h2⟩ := reconciler_credits_only_buyers c9db 100
    [⟨10100000, 50⟩] 2 hv
  exact ⟨h1, h2.trans rfl⟩

/-!
## C10: cancellation is a pure status change
-/

theorem cancelOrder_users (db : DB) (oid : String) (uid : ℕ) :
    (cancelOrder db oid uid).1.users = db.users := by
  unfold cancelOrder
  cases db.orders.find? (fun o => o.order_id == oid && o.user_id == uid) with
  | none => rfl
  | some o =>
      dsimp only
      split <;> rfl

theorem cancelOrder_products (db : DB) (oid : String) (uid : ℕ) :
    (cancelOrder db oid uid).1.products = db.products := by
  unfold cancelOrder
  cases db.orders.find? (fun o => o.order_id == oid && o.user_id == uid) with
  | none => rfl
  | some o =>
      dsimp only
      split <;> rfl

theorem cancelOrder_withdraws (db : DB) (oid : String) (uid : ℕ) :
    (cancelOrder db oid uid).1.withdraw_orders = db.withdraw_orders := by
  unfold cancelOrder
  cases db.orders.find? (fun o => o.order_id == oid && o.user_id == uid) with
  | none => rfl
  | some o =>
      dsimp only
      split <;> rfl

theorem cancelOrder_ledger (db : DB) (oid : String) (uid : ℕ) :
    (cancelOrder db oid uid).1.ledger = db.ledger := by
  unfold cancelOrder
  cases db.orders.find? (fun o => o.order_id == oid && o.user_id == uid) with
  | none => rfl
  | some o =>
      dsimp only
      split <;> rfl

theorem cancelOrder_orders (db : DB) (oid : String) (uid : ℕ) :
    (cancelOrder db oid uid).1.orders = db.orders ∨
    (cancelOrder db oid uid).1.orders = db.orders.map
      (fun o => if o.order_id = oid
        then { o with status := statusCancelled } else o) := by
  unfold cancelOrder
  cases db.orders.find? (fun o => o.order_id == oid && o.user_id == uid) with
  | none => exact Or.inl rfl
  | some o =>
      dsimp only
      split
      · exact Or.inl rfl
      · exact Or.inr rfl

/-- C10: POST /api/order/cancel never touches users, products,
withdrawals or ledger; its only write is the status column of the rows
with the given order_id (and only when a pending order of the requesting
user exists).  Consequently, creating an order with a positive balance
deduction and then cancelling it leaves the deduction in place — the
final balance is the initial balance minus the deducted amount — and the
product table (hence stock) exactly as it started. -/
theorem cancel_frame_and_no_refund (db : DB) (oid : String) (uid : ℕ)
    (p : CreateParams) (env : CreateEnv) (prod : Product)
    (hm : p.paymentMethod = "USDT")
    (hp : findProduct db p.productId = some prod)
    (hub : 0 < p.useBalance)
    (hbal : p.useBalance ≤ userBalance db p.userId)
    (howed : p.useBalance <
      round4 (prod.price * (p.quantity : ℚ) + nonceOf env.draw)) :
    (cancelOrder db oid uid).1.users = db.users ∧
    (cancelOrder db oid uid).1.products = db.products ∧
    (cancelOrder db oid uid).1.withdraw_orders = db.withdraw_orders ∧
    (cancelOrder db oid uid).1.ledger = db.ledger ∧
    ((cancelOrder db oid uid).1.orders = db.orders ∨
      (cancelOrder db oid uid).1.orders = db.orders.map
        (fun o => if o.order_id = oid
          then { o with status := statusCancelled } else o)) ∧
    (userBalance (cancelOrder (createOrder db p env).1 env.orderId
        p.userId).1 p.userId = userBalance db p.userId - p.useBalance ∧
      (cancelOrder (createOrder db p env).1 env.orderId
        p.userId).1.products = db.products) := by
  refine ⟨cancelOrder_users db oid uid, cancelOrder_products db oid uid,
    cancelOrder_withdraws db oid uid, cancelOrder_ledger db oid uid,
    cancelOrder_orders db oid uid, ?_, ?_⟩
  · have husers : (cancelOrder (createOrder db p env).1 env.orderId
        p.userId).1.users = (createOrder db p env).1.users :=
      cancelOrder_users _ _ _
    have hcb : userBalance (cancelOrder (createOrder db p env).1
        env.orderId p.userId).1 p.userId =
        userBalance (createOrder db p env).1 p.userId := by
      unfold userBalance findUser
      rw [husers]
    rw [hcb]
    exact createOrder_deduct_balance db p env prod hm hp hub hbal howed
  · rw [cancelOrder_products]
    exact createOrder_products db p env

/-- Witness for C10: balance 9, deduction 2, order created then
cancelled — the balance ends at 7 (not re-credited) and the product table
is unchanged. -/
theorem cancel_frame_and_no_refund_witness :
    userBalance (cancelOrder (createOrder c10db c10params c10env).1
      c10env.orderId c10params.userId).1 c10params.userId = 7 ∧
    (cancelOrder (createOrder c10db c10params c10env).1
      c10env.orderId c10params.userId).1.products = c10db.products := by
  obtain ⟨-, -, -, -, -, hbal, hprod⟩ := cancel_frame_and_no_refund c10db
    "ORD-X00001" 1 c10params c10env ⟨1, "widget", 10, 4⟩ rfl rfl
    (by norm_num [c10params])
    (by norm_num [c10params, show userBalance c10db 1 = 9 from rfl])
    (by norm_num [c10params, c10env, round4, roundTo, nonceOf])
  refine ⟨?_, hprod⟩
  rw [hbal]
  norm_num [c10params, show userBalance c10db 1 = 9 from rfl]
